import Mathlib

/-!
Verification development for the event-ingestion and enrichment pipeline of the
LooksRare/ord ordinals indexer.  The definitions below are a shallow embedding
of the Rust sources: pure functions become Lean functions, database tables
become explicit list-of-row states threaded through the operations, and the
external collaborators (HTTP API, CBOR decoder, Bitcoin address parser,
message broker) become explicit oracles passed as function arguments.
-/

namespace LrOrd

/-- An outpoint `(txid, vout)`; the txid is kept as its string rendering,
matching how the pipeline persists it. -/
structure OutPointM where
  txid : String
  vout : Nat
deriving DecidableEq, Repr

/-- A `SatPoint`: an outpoint plus a sat offset within the output. -/
structure SatPointM where
  outpoint : OutPointM
  offset : Nat
deriving DecidableEq, Repr

/-- The string rendering `<txid>:<vout>` of an outpoint, as bound into the
`location` table by `OrdDbClient::save_location`. -/
def outPointToString (o : OutPointM) : String :=
  o.txid ++ ":" ++ toString o.vout

/-! ## The `events` relation (`src/ord_db_client.rs`) -/

/-- One row of the `events` relation:
`(id auto, type_id, block_height, inscription_id, location?, old_location?)`.
Nullable text columns are `Option String`. -/
structure EventRow where
  id : Nat
  type_id : Int
  block_height : Int
  inscription_id : String
  location : Option String
  old_location : Option String
deriving DecidableEq, Repr

/-- SQL three-valued equality on a nullable column: `x = $n` is TRUE only when
both sides are non-NULL and equal; a comparison involving NULL is never TRUE,
so it never satisfies a `WHERE` conjunct. -/
def sqlEqOpt {α : Type} [DecidableEq α] : Option α → Option α → Bool
  | some a, some b => a == b
  | _, _ => false

/-- The `events` table state: current rows plus the auto-increment counter. -/
structure EventsTable where
  rows : List EventRow
  nextId : Nat
deriving DecidableEq, Repr

/-- An empty `events` table. -/
def emptyEventsTable : EventsTable := { rows := [], nextId := 1 }

/-- `OrdDbClient::save_inscription_created`:
`INSERT INTO events (type_id, block_height, inscription_id, location)
SELECT $1, $2, $3, $4 WHERE NOT EXISTS (SELECT 1 FROM events WHERE
type_id = $1 AND block_height = $2 AND inscription_id = $3 AND location = $4)`
with `$1 = 1`, the block height bound as a 64-bit integer, the inscription id
bound as its string rendering and the optional location bound as its optional
string rendering.  The `WHERE NOT EXISTS` guard uses SQL NULL comparison
semantics on `location`. -/
def save_inscription_created (t : EventsTable) (block_height : Nat)
    (inscription_id : String) (location : Option String) : EventsTable :=
  let dup := t.rows.any fun r =>
    r.type_id == 1 && r.block_height == (block_height : Int) &&
      r.inscription_id == inscription_id && sqlEqOpt r.location location
  if dup then t
  else
    let row : EventRow :=
      { id := t.nextId, type_id := 1, block_height := (block_height : Int),
        inscription_id := inscription_id, location := location,
        old_location := none }
    { rows := t.rows ++ [row], nextId := t.nextId + 1 }

/-- `OrdDbClient::save_inscription_transferred`: same `INSERT … SELECT … WHERE
NOT EXISTS` pattern with `$1 = 2` and both `location` (the new location) and
`old_location` bound as non-NULL strings. -/
def save_inscription_transferred (t : EventsTable) (block_height : Nat)
    (inscription_id : String) (new_location old_location : String) : EventsTable :=
  let dup := t.rows.any fun r =>
    r.type_id == 2 && r.block_height == (block_height : Int) &&
      r.inscription_id == inscription_id &&
      sqlEqOpt r.location (some new_location) &&
      sqlEqOpt r.old_location (some old_location)
  if dup then t
  else
    let row : EventRow :=
      { id := t.nextId, type_id := 2, block_height := (block_height : Int),
        inscription_id := inscription_id, location := some new_location,
        old_location := some old_location }
    { rows := t.rows ++ [row], nextId := t.nextId + 1 }

/-- The in-memory `Event` struct produced by `Event::from_row`
(`src/ord_db_client.rs`): locations are parsed `SatPoint`s or `None`. -/
structure EventM where
  type_id : Int
  block_height : Int
  inscription_id : String
  location : Option SatPointM
  old_location : Option SatPointM
deriving DecidableEq, Repr

/-- `Event::from_row`: each nullable text column is decoded with
`SatPoint::from_str(&s).ok()`, so a parse failure silently becomes `None`.
The `parse` argument stands for `SatPoint::from_str`, an external function of
the ordinals crate. -/
def eventFromRow (parse : String → Option SatPointM) (r : EventRow) : EventM :=
  { type_id := r.type_id, block_height := r.block_height,
    inscription_id := r.inscription_id,
    location := r.location.bind fun s => parse s,
    old_location := r.old_location.bind fun s => parse s }

/-- The `ORDER BY type_id ASC, id ASC` comparison of
`fetch_events_by_block_height`. -/
def eventRowLe (a b : EventRow) : Bool :=
  decide (a.type_id < b.type_id) ||
    (decide (a.type_id = b.type_id) && decide (a.id ≤ b.id))

/-- `OrdDbClient::fetch_events_by_block_height`:
`SELECT type_id, block_height, inscription_id, location, old_location FROM
events WHERE block_height = $1 ORDER BY type_id ASC, id ASC`, each returned
row decoded through `Event::from_row`. -/
def fetch_events_by_block_height (parse : String → Option SatPointM)
    (t : EventsTable) (block_height : Nat) : List EventM :=
  (((t.rows.filter fun r => r.block_height == (block_height : Int)).mergeSort
      eventRowLe).map (eventFromRow parse))

/-! ## Metadata decoding (`src/indexer/inscription_indexation.rs`) -/

/-- A decoded value in the shape of `serde_json::Value`: the target type into
which `ciborium::from_reader` deserializes the CBOR metadata payload. -/
inductive JsonVal where
  | null : JsonVal
  | bool (b : Bool) : JsonVal
  | num (n : Int) : JsonVal
  | str (s : String) : JsonVal
  | arr (xs : List JsonVal) : JsonVal
  | obj (kvs : List (String × JsonVal)) : JsonVal
deriving Repr

/-- Escaping of quote and backslash inside a JSON string literal. -/
def jsonEscape (s : String) : String :=
  s.foldl (fun acc c =>
    if c = '"' then acc ++ "\\\""
    else if c = '\\' then acc ++ "\\\\"
    else acc.push c) ""

/-- Compact JSON text rendering, modelling `serde_json::to_string` (which is
total on `serde_json::Value`). -/
def jsonToString : JsonVal → String
  | .null => "null"
  | .bool true => "true"
  | .bool false => "false"
  | .num n => toString n
  | .str s => "\"" ++ jsonEscape s ++ "\""
  | .arr xs =>
      "[" ++ String.intercalate "," (xs.attach.map fun x => jsonToString x.1)
        ++ "]"
  | .obj kvs =>
      "\x7b" ++ String.intercalate ","
          (kvs.attach.map fun kv =>
            "\"" ++ jsonEscape kv.1.1 ++ "\":" ++ jsonToString kv.1.2)
        ++ "\x7d"
decreasing_by
  · have h := List.sizeOf_lt_of_mem x.2
    simp
    omega
  · have h := List.sizeOf_lt_of_mem kv.2
    have h2 : sizeOf kv.1.2 < sizeOf kv.1 := by
      obtain ⟨a, b⟩ := kv.1
      simp
    simp
    omega

/-- The hex digit for a nibble, lowercase, as produced by `hex::encode`. -/
def hexDigit (n : Nat) : Char :=
  if n < 10 then Char.ofNat (48 + n) else Char.ofNat (87 + n)

/-- `hex::encode`: each byte rendered as two lowercase hex digits. -/
def hexEncode (bytes : List Nat) : String :=
  bytes.foldl
    (fun acc b => (acc.push (hexDigit (b / 16 % 16))).push (hexDigit (b % 16)))
    ""

/-- `InscriptionIndexation::try_and_extract_metadata`: the raw metadata bytes,
when present, are decoded with `ciborium::from_reader` (modelled by the
`decode` oracle); an empty object yields `None`, an object or array is
re-encoded as JSON text, anything else — and a decode failure — yields the
raw bytes hex-encoded. -/
def try_and_extract_metadata (decode : List Nat → Except Unit JsonVal)
    (metadata : Option (List Nat)) : Option String :=
  metadata.bind fun bytes =>
    match decode bytes with
    | .ok value =>
      match value with
      | .obj [] => none
      | .obj kvs => some (jsonToString (.obj kvs))
      | .arr xs => some (jsonToString (.arr xs))
      | _ => some (hexEncode bytes)
    | .error _ => some (hexEncode bytes)

/-! ## The API client retry loop (`src/ord_api_client.rs`) -/

/-- The outcome of one `request.send().await` attempt: a transport error, or
an HTTP response carrying a status code and a body. -/
inductive HttpOutcome where
  | transportError (msg : String) : HttpOutcome
  | response (status : Nat) (body : String) : HttpOutcome
deriving DecidableEq, Repr

/-- The possible results of `OrdApiClient::execute_with_retries`:
a decoded success, a failure of the `.json::<T>()` step, the inner
`Err(e) => return Err(anyhow!(e))` branch (an immediately surfaced status
error), or the final exhaustion error carrying the last recorded message. -/
inductive ApiResult (τ : Type) where
  | success (v : τ) : ApiResult τ
  | decodeFailure : ApiResult τ
  | nonRetriable (status : Nat) : ApiResult τ
  | exhausted (lastError : Option String) : ApiResult τ
deriving DecidableEq, Repr

/-- reqwest `StatusCode::is_server_error`: status in `500..=599`. -/
def isServerError (status : Nat) : Bool := 500 ≤ status && status ≤ 599

/-- reqwest `StatusCode::is_client_error`: status in `400..=499`. -/
def isClientError (status : Nat) : Bool := 400 ≤ status && status ≤ 499

/-- reqwest `Response::error_for_status` produces an error exactly for the
statuses `400..=599`, and that error always carries the status. -/
def errorForStatusFails (status : Nat) : Bool :=
  isClientError status || isServerError status

/-- The `last_error` message recorded for a status error; the source formats
`"{status}: {error}"`, of which we keep the status rendering. -/
def statusErrorText (status : Nat) : String := toString status

/-- The `while attempts < max_attempts` loop of
`OrdApiClient::execute_with_retries`.  `send` gives the outcome of the
attempt numbered by its argument; `decodeBody` stands for `.json::<T>()`.
Besides the result, the list of back-off sleeps (in seconds, in order) is
returned. -/
def retryLoop {τ : Type} (send : Nat → HttpOutcome)
    (decodeBody : String → Option τ) :
    Nat → Nat → Nat → Option String → ApiResult τ × List Nat
  | 0, _, _, lastError => (.exhausted lastError, [])
  | remaining + 1, attempt, delay, _lastError =>
    match send attempt with
    | .transportError msg =>
      let rest :=
        retryLoop send decodeBody remaining (attempt + 1) (delay * 2)
          (some msg)
      (rest.1, delay :: rest.2)
    | .response status body =>
      if errorForStatusFails status then
        if isServerError status || isClientError status then
          let rest :=
            retryLoop send decodeBody remaining (attempt + 1) (delay * 2)
              (some (statusErrorText status))
          (rest.1, delay :: rest.2)
        else (.nonRetriable status, [])
      else
        match decodeBody body with
        | some v => (.success v, [])
        | none => (.decodeFailure, [])

/-- `OrdApiClient::execute_with_retries`: the loop counts `attempts` from 0
up to `max_attempts` (here carried as the number of remaining iterations),
and the back-off delay starts at 1 second, doubling after every failed
attempt; the sleep happens after each failed attempt, the final one
included. -/
def execute_with_retries {τ : Type} (send : Nat → HttpOutcome)
    (decodeBody : String → Option τ) (maxAttempts : Nat) :
    ApiResult τ × List Nat :=
  retryLoop send decodeBody maxAttempts 0 1 none

/-- `OrdApiClient::fetch_inscription_details` calls
`execute_with_retries(request, 3)`. -/
def fetch_inscription_details {τ : Type} (send : Nat → HttpOutcome)
    (decodeBody : String → Option τ) : ApiResult τ × List Nat :=
  execute_with_retries send decodeBody 3

/-- `OrdApiClient::fetch_tx` calls `execute_with_retries(request, 3)`. -/
def fetch_tx {τ : Type} (send : Nat → HttpOutcome)
    (decodeBody : String → Option τ) : ApiResult τ × List Nat :=
  execute_with_retries send decodeBody 3

/-- `OrdApiClient::fetch_block_info` calls `execute_with_retries(request, 3)`. -/
def fetch_block_info {τ : Type} (send : Nat → HttpOutcome)
    (decodeBody : String → Option τ) : ApiResult τ × List Nat :=
  execute_with_retries send decodeBody 3

/-! ## Broker channel setup (`src/indexer/rmq_con.rs` and
`src/indexer/event_publisher.rs`) -/

/-- The observable configuration of an AMQP channel. -/
structure ChannelState where
  confirmsEnabled : Bool
  prefetch : Option Nat
deriving DecidableEq, Repr

/-- A channel freshly created by `Connection::create_channel`: confirms off,
no QoS applied. -/
def freshChannel : ChannelState := { confirmsEnabled := false, prefetch := none }

/-- `Channel::confirm_select`. -/
def confirmSelect (c : ChannelState) : ChannelState :=
  { c with confirmsEnabled := true }

/-- `Channel::basic_qos(n)`. -/
def basicQos (n : Nat) (c : ChannelState) : ChannelState :=
  { c with prefetch := some n }

/-- `create_channel` (`src/indexer/rmq_con.rs`): creates a channel on the
connection and enables publisher confirms; no QoS call is made there. -/
def create_channel : ChannelState := confirmSelect freshChannel

/-- `rabbit_qos_setup` (`src/indexer/event_publisher.rs`): applies
`basic_qos(2)` to a channel; invoked only on the publisher's own channel. -/
def rabbit_qos_setup (c : ChannelState) : ChannelState := basicQos 2 c

/-! ## Consumer delivery handling (`src/indexer/event_consumer.rs` and
`src/indexer/block_consumer.rs`) -/

/-- AMQP header values, as far as delivery counting observes them. -/
inductive AmqpValue where
  | longLongInt (n : Int) : AmqpValue
  | otherValue : AmqpValue
deriving DecidableEq, Repr

/-- Broker operations a delivery handler can perform, in order. -/
inductive BrokerOp where
  | ack : BrokerOp
  | reject (requeue : Bool) : BrokerOp
  | nack (multiple requeue : Bool) : BrokerOp
  | publish (queue : String) (deliveryCount : Int) : BrokerOp
deriving DecidableEq, Repr

/-- The `x-delivery-count` extraction in `BlockConsumer::handle_delivery`:
`0` when the headers are absent, the key is missing, or the value is not a
`LongLongInt`. -/
def extractDeliveryCount
    (headers : Option (List (String × AmqpValue))) : Int :=
  match headers with
  | some hs =>
    match hs.lookup "x-delivery-count" with
    | some (.longLongInt c) => c
    | _ => 0
  | none => 0

/-- `EventConsumer::handle_delivery` (`src/indexer/event_consumer.rs`):
`deserialized` says whether `serde_json::from_slice` succeeded and
`processOk` whether `process_event` returned `Ok`.  The result is the list
of broker operations performed. -/
def eventConsumerHandleDelivery (deserialized processOk : Bool) :
    List BrokerOp :=
  if deserialized then
    if processOk then [.ack] else [.reject false]
  else [.reject false]

/-- `BlockConsumer::handle_delivery` (`src/indexer/block_consumer.rs`): on a
processing failure, the delivery is rejected without requeue when the
extracted `x-delivery-count` is at least 3, and otherwise nacked with
`requeue = true`; a deserialization failure is rejected without requeue. -/
def blockConsumerHandleDelivery (deserialized processOk : Bool)
    (headers : Option (List (String × AmqpValue))) : List BrokerOp :=
  let deliveryCount := extractDeliveryCount headers
  if deserialized then
    if processOk then [.ack]
    else if deliveryCount ≥ 3 then [.reject false]
    else [.nack false true]
  else [.reject false]

/-! ## The enrichment workflow (`src/indexer/inscription_indexation.rs` with
the database operations of `src/ord_db_client.rs`) -/

/-- `InscriptionDetails` as fetched from the ordinals API: exactly the fields
bound by `OrdDbClient::save_inscription`.  `id` is the genesis
`InscriptionId`, kept in its string rendering. -/
structure InscriptionDetails where
  id : String
  number : Int
  content_type : Option String
  content_length : Option Nat
  metadata : Option (List Nat)
  genesis_block_height : Nat
  genesis_block_time : Nat
  sat_number : Option Nat
  sat_rarity : Option Int
  sat_block_height : Option Nat
  sat_block_time : Option Nat
  fee : Nat
  charms : Nat
  children : List String
  parents : List String
deriving DecidableEq, Repr

/-- One row of the `inscription` relation: the surrogate `id` plus the
columns written by `save_inscription`. -/
structure InscriptionRow where
  id : Nat
  genesis_id : String
  number : Int
  content_type : Option String
  content_length : Option Nat
  metadata : Option String
  genesis_block_height : Nat
  genesis_block_time : Nat
  sat_number : Option Nat
  sat_rarity : Option Int
  sat_block_height : Option Nat
  sat_block_time : Option Nat
  fee : Nat
  charms : Nat
  children : List String
  parents : List String
deriving DecidableEq, Repr

/-- One row of the `location` relation, in the column order of
`OrdDbClient::save_location`. -/
structure LocationRow where
  inscription_id : Nat
  block_height : Int
  block_time : Nat
  tx_id : Option String
  to_address : Option String
  cur_output : Option String
  cur_offset : Option Nat
  from_address : Option String
  prev_output : Option String
  prev_offset : Option Nat
  value : Option Nat
deriving DecidableEq, Repr

/-- The database state the enrichment workflow writes: the `inscription` and
`location` relations plus the surrogate-id counter. -/
structure EnrichDb where
  inscriptions : List InscriptionRow
  locations : List LocationRow
  nextInscriptionId : Nat
deriving DecidableEq, Repr

/-- The empty enrichment database. -/
def emptyEnrichDb : EnrichDb :=
  { inscriptions := [], locations := [], nextInscriptionId := 1 }

/-- SQL `COALESCE(new, old)`. -/
def coalesce {α : Type} : Option α → Option α → Option α
  | some v, _ => some v
  | none, old => old

/-- `OrdDbClient::fetch_inscription_id_by_genesis_id`:
`SELECT id FROM inscription WHERE genesis_id = $1`. -/
def fetch_inscription_id_by_genesis_id (st : EnrichDb)
    (genesis_id : String) : Option Nat :=
  (st.inscriptions.find? fun r => r.genesis_id == genesis_id).map fun r => r.id

/-- `OrdDbClient::save_inscription`: `INSERT … ON CONFLICT (genesis_id) DO
UPDATE SET …` with `COALESCE(EXCLUDED.c, inscription.c)` on the nullable
columns (`children` and `parents` are bound as JSON and therefore never
NULL), `RETURNING id`. -/
def save_inscription (st : EnrichDb) (d : InscriptionDetails)
    (metadata : Option String) : EnrichDb × Nat :=
  match st.inscriptions.find? fun r => r.genesis_id == d.id with
  | some existing =>
    let updated : InscriptionRow :=
      { existing with
        number := d.number
        content_type := d.content_type
        content_length := coalesce d.content_length existing.content_length
        metadata := coalesce metadata existing.metadata
        genesis_block_height := d.genesis_block_height
        genesis_block_time := d.genesis_block_time
        sat_number := coalesce d.sat_number existing.sat_number
        sat_rarity := coalesce d.sat_rarity existing.sat_rarity
        sat_block_height := coalesce d.sat_block_height existing.sat_block_height
        sat_block_time := coalesce d.sat_block_time existing.sat_block_time
        fee := d.fee
        charms := d.charms
        children := d.children
        parents := d.parents }
    let rows := st.inscriptions.map fun r =>
      if r.genesis_id == d.id then updated else r
    ({ st with inscriptions := rows }, existing.id)
  | none =>
    let row : InscriptionRow :=
      { id := st.nextInscriptionId, genesis_id := d.id, number := d.number,
        content_type := d.content_type, content_length := d.content_length,
        metadata := metadata,
        genesis_block_height := d.genesis_block_height,
        genesis_block_time := d.genesis_block_time,
        sat_number := d.sat_number, sat_rarity := d.sat_rarity,
        sat_block_height := d.sat_block_height,
        sat_block_time := d.sat_block_time, fee := d.fee, charms := d.charms,
        children := d.children, parents := d.parents }
    let st1 : EnrichDb :=
      { st with inscriptions := st.inscriptions ++ [row],
                nextInscriptionId := st.nextInscriptionId + 1 }
    (st1, st.nextInscriptionId)

/-- `OrdDbClient::save_location`: `INSERT … SELECT … WHERE NOT EXISTS` on the
full column tuple, with SQL NULL comparison semantics on every nullable
column. -/
def save_location (st : EnrichDb) (row : LocationRow) : EnrichDb :=
  let dup := st.locations.any fun r =>
    r.inscription_id == row.inscription_id &&
      r.block_height == row.block_height &&
      r.block_time == row.block_time &&
      sqlEqOpt r.tx_id row.tx_id &&
      sqlEqOpt r.to_address row.to_address &&
      sqlEqOpt r.cur_output row.cur_output &&
      sqlEqOpt r.cur_offset row.cur_offset &&
      sqlEqOpt r.from_address row.from_address &&
      sqlEqOpt r.prev_output row.prev_output &&
      sqlEqOpt r.prev_offset row.prev_offset &&
      sqlEqOpt r.value row.value
  if dup then st else { st with locations := st.locations ++ [row] }

/-- A transaction output as returned by the ordinals API `tx` endpoint:
the script bytes and the output value in sats. -/
structure TxOut where
  script_pubkey : List Nat
  value : Nat
deriving DecidableEq, Repr

/-- The transaction body inside the API response. -/
structure TxM where
  output : List TxOut
deriving DecidableEq, Repr

/-- The API `tx` response. -/
structure TxDetails where
  transaction : TxM
deriving DecidableEq, Repr

/-- The API `blockinfo` response, of which the workflow uses `timestamp`. -/
structure BlockInfo where
  timestamp : Nat
deriving DecidableEq, Repr

/-- The external collaborators of `InscriptionIndexation`, as oracles:
`fetchEvents` is the read-only `fetch_events_by_block_height` query (the
workflow never writes the `events` table), `fetchBlockInfo`,
`fetchInscriptionDetails` and `fetchTx` are the three API calls,
`addressFromScript` is `settings.chain().address_from_script`, and
`cborDecode` is `ciborium::from_reader`. -/
structure SyncEnv where
  fetchEvents : Nat → Except Unit (List EventM)
  fetchBlockInfo : Nat → Except Unit BlockInfo
  fetchInscriptionDetails : String → Except Unit InscriptionDetails
  fetchTx : String → Except Unit TxDetails
  addressFromScript : List Nat → Option String
  cborDecode : List Nat → Except Unit JsonVal

/-- `InscriptionIndexation::process_location`: fetch the transaction, select
output `vout`, and derive an address from its script.  When an address is
derived the result is `Some (address, output.value)`; when no address can be
derived — including when the output itself is absent — the result is `None`
(the source matches on the derived address, and `output.unwrap()` is only
reached when an address exists, hence when the output exists). -/
def process_location (env : SyncEnv) (location : SatPointM) :
    Except Unit (Option (String × Nat)) :=
  match env.fetchTx location.outpoint.txid with
  | .error e => .error e
  | .ok tx_details =>
    match tx_details.transaction.output.get? location.outpoint.vout with
    | none => .ok none
    | some o =>
      match env.addressFromScript o.script_pubkey with
      | some addr => .ok (some (addr, o.value))
      | none => .ok none

/-- `InscriptionIndexation::process_inscription_created`: fetch the details,
extract metadata, upsert the inscription, resolve the `to` location when the
event has one, and append a `location` row with only the `to` side
populated.  The returned state reflects every database write performed
before a failure. -/
def process_inscription_created (env : SyncEnv) (st : EnrichDb)
    (event : EventM) (block_info : BlockInfo) : EnrichDb × Except Unit Unit :=
  match env.fetchInscriptionDetails event.inscription_id with
  | .error e => (st, .error e)
  | .ok inscription_details =>
    let metadata :=
      try_and_extract_metadata env.cborDecode inscription_details.metadata
    let saved := save_inscription st inscription_details metadata
    let st1 := saved.1
    let inscription_id := saved.2
    let toLocationResult : Except Unit (Option (String × Nat)) :=
      match event.location with
      | some location => process_location env location
      | none => .ok none
    match toLocationResult with
    | .error e => (st1, .error e)
    | .ok to_location_details =>
      let row : LocationRow :=
        { inscription_id := inscription_id
          block_height := event.block_height
          block_time := block_info.timestamp
          tx_id := event.location.map fun loc => loc.outpoint.txid
          to_address := to_location_details.map fun d => d.1
          cur_output := event.location.map fun loc =>
            outPointToString loc.outpoint
          cur_offset := event.location.map fun loc => loc.offset
          from_address := none
          prev_output := none
          prev_offset := none
          value := to_location_details.map fun d => d.2 }
      (save_location st1 row, .ok ())

/-- `InscriptionIndexation::process_inscription_transferred`: resolve the
surrogate id by genesis id and fail (`ok_or_else(anyhow!("No inscription
found for genesis_id: …"))`) when it is absent; otherwise resolve the `to`
side from `event.location` and the `from` side from `event.old_location`
and append a `location` row with both sides populated. -/
def process_inscription_transferred (env : SyncEnv) (st : EnrichDb)
    (event : EventM) (block_info : BlockInfo) : EnrichDb × Except Unit Unit :=
  match fetch_inscription_id_by_genesis_id st event.inscription_id with
  | none => (st, .error ())
  | some inscription_id =>
    let toLocationResult : Except Unit (Option (String × Nat)) :=
      match event.location with
      | some location => process_location env location
      | none => .ok none
    match toLocationResult with
    | .error e => (st, .error e)
    | .ok to_location_details =>
      let fromLocationResult : Except Unit (Option (String × Nat)) :=
        match event.old_location with
        | some location => process_location env location
        | none => .ok none
      match fromLocationResult with
      | .error e => (st, .error e)
      | .ok from_location_details =>
        let row : LocationRow :=
          { inscription_id := inscription_id
            block_height := event.block_height
            block_time := block_info.timestamp
            tx_id := event.location.map fun loc => loc.outpoint.txid
            to_address := to_location_details.map fun d => d.1
            cur_output := event.location.map fun loc =>
              outPointToString loc.outpoint
            cur_offset := event.location.map fun loc => loc.offset
            from_address := from_location_details.map fun d => d.1
            prev_output := event.old_location.map fun loc =>
              outPointToString loc.outpoint
            prev_offset := event.old_location.map fun loc => loc.offset
            value := to_location_details.map fun d => d.2 }
        (save_location st row, .ok ())

/-- One iteration of the event loop in `InscriptionIndexation::sync_blocks`:
a failure of the per-event processing is logged and otherwise ignored, so
only the (possibly partially written) state is kept. -/
def syncBlocksStep (env : SyncEnv) (block_info : BlockInfo) (st : EnrichDb)
    (event : EventM) : EnrichDb :=
  if event.type_id = 1 then
    (process_inscription_created env st event block_info).1
  else if event.type_id = 2 then
    (process_inscription_transferred env st event block_info).1
  else st

/-- `InscriptionIndexation::sync_blocks`: fetch the events of the block,
return early when there are none, fetch the block info once, then process
every event in order, logging and swallowing per-event failures. -/
def sync_blocks (env : SyncEnv) (st : EnrichDb) (block_height : Nat) :
    EnrichDb × Except Unit Unit :=
  match env.fetchEvents block_height with
  | .error e => (st, .error e)
  | .ok events =>
    if events.isEmpty then (st, .ok ())
    else
      match env.fetchBlockInfo block_height with
      | .error e => (st, .error e)
      | .ok block_info =>
        (events.foldl (syncBlocksStep env block_info) st, .ok ())

/-! ## Durability predicates and concrete example inputs -/

/-- An `inscription` row with the given genesis id is present. -/
def inscriptionPresent (st : EnrichDb) (genesis_id : String) : Prop :=
  ∃ r ∈ st.inscriptions, r.genesis_id = genesis_id

/-- A `location` row as written for a Created event is present: the `to`
side matches the event and the `from` side is NULL. -/
def createdLocationPresent (st : EnrichDb) (e : EventM) : Prop :=
  ∃ l ∈ st.locations, l.block_height = e.block_height ∧
    l.cur_output = (e.location.map fun loc => outPointToString loc.outpoint) ∧
    l.cur_offset = (e.location.map fun loc => loc.offset) ∧
    l.from_address = none ∧ l.prev_output = none ∧ l.prev_offset = none

/-- A `location` row as written for a Transferred event is present: the `to`
side matches `location` and the `from` side matches `old_location`. -/
def transferLocationPresent (st : EnrichDb) (e : EventM) : Prop :=
  ∃ l ∈ st.locations, l.block_height = e.block_height ∧
    l.cur_output = (e.location.map fun loc => outPointToString loc.outpoint) ∧
    l.cur_offset = (e.location.map fun loc => loc.offset) ∧
    l.prev_output =
      (e.old_location.map fun loc => outPointToString loc.outpoint) ∧
    l.prev_offset = (e.old_location.map fun loc => loc.offset)

/-- Whether one attempt outcome is one the retry loop retries on. -/
def retriableOutcome : HttpOutcome → Bool
  | .transportError _ => true
  | .response status _ => errorForStatusFails status

/-- The sleep schedule of a run of `n` failed attempts starting from back-off
`delay`: the delay doubles after every failed attempt. -/
def geomSleeps : Nat → Nat → List Nat
  | _, 0 => []
  | delay, n + 1 => delay :: geomSleeps (delay * 2) n

/-- A concrete Created event at height 800000 with no location. -/
def c1Event : EventM :=
  { type_id := 1, block_height := 800000, inscription_id := "gen1",
    location := none, old_location := none }

/-- A concrete environment for which the single Created event of block
800000 cannot be enriched: the details fetch fails. -/
def c1Env : SyncEnv :=
  { fetchEvents := fun _ => .ok [c1Event]
    fetchBlockInfo := fun _ => .ok { timestamp := 100 }
    fetchInscriptionDetails := fun _ => .error ()
    fetchTx := fun _ => .error ()
    addressFromScript := fun _ => none
    cborDecode := fun _ => .error () }

/-- A concrete Transferred event whose genesis id has no inscription row. -/
def c2Event : EventM :=
  { type_id := 2, block_height := 800000, inscription_id := "gen1",
    location :=
      some { outpoint := { txid := "txb", vout := 0 }, offset := 0 },
    old_location :=
      some { outpoint := { txid := "txa", vout := 0 }, offset := 0 } }

/-- Concrete inscription details the API would return for `gen1`. -/
def c2Details : InscriptionDetails :=
  { id := "gen1", number := 1, content_type := none, content_length := none,
    metadata := none, genesis_block_height := 800000,
    genesis_block_time := 0, sat_number := none, sat_rarity := none,
    sat_block_height := none, sat_block_time := none, fee := 0, charms := 0,
    children := [], parents := [] }

/-- A concrete environment in which every API call succeeds, so a recovery
path for a missed creation would have everything it needs. -/
def c2Env : SyncEnv :=
  { fetchEvents := fun _ => .ok [c2Event]
    fetchBlockInfo := fun _ => .ok { timestamp := 100 }
    fetchInscriptionDetails := fun _ => .ok c2Details
    fetchTx := fun _ =>
      .ok { transaction :=
              { output := [{ script_pubkey := [0], value := 1000 }] } }
    addressFromScript := fun _ => some "addr1"
    cborDecode := fun _ => .error () }

/-- A concrete environment whose transaction has exactly one output with
value 5000 sats and a script from which no address can be derived. -/
def c9Env : SyncEnv :=
  { fetchEvents := fun _ => .ok []
    fetchBlockInfo := fun _ => .ok { timestamp := 0 }
    fetchInscriptionDetails := fun _ => .error ()
    fetchTx := fun _ =>
      .ok { transaction :=
              { output := [{ script_pubkey := [106, 1], value := 5000 }] } }
    addressFromScript := fun _ => none
    cborDecode := fun _ => .error () }

/-- The satpoint pointing at output 0 of that transaction. -/
def c9SatPoint : SatPointM :=
  { outpoint := { txid := "txa", vout := 0 }, offset := 0 }

/-- A variant of the failing environment in which the details fetch
succeeds, so a Created event can be fully enriched. -/
def c1GoodEnv : SyncEnv :=
  { fetchEvents := fun _ => .ok [c1Event]
    fetchBlockInfo := fun _ => .ok { timestamp := 100 }
    fetchInscriptionDetails := fun _ => .ok c2Details
    fetchTx := fun _ => .error ()
    addressFromScript := fun _ => none
    cborDecode := fun _ => .error () }

/-- A concrete inscription row for genesis id `gen1` with surrogate id 1. -/
def c1Insc : InscriptionRow :=
  { id := 1, genesis_id := "gen1", number := 1, content_type := none,
    content_length := none, metadata := none,
    genesis_block_height := 800000, genesis_block_time := 0,
    sat_number := none, sat_rarity := none, sat_block_height := none,
    sat_block_time := none, fee := 0, charms := 0, children := [],
    parents := [] }

/-- An enrichment database already holding the `gen1` inscription row. -/
def c1Db : EnrichDb :=
  { inscriptions := [c1Insc], locations := [], nextInscriptionId := 2 }

/-- A concrete Created-event row stored at height 800000. -/
def c7Row : EventRow :=
  { id := 2, type_id := 1, block_height := 800000, inscription_id := "gen2",
    location := none, old_location := none }

/-- A concrete `events` table holding a Transferred row (inserted first) and
a Created row at the same height. -/
def c7Table : EventsTable :=
  { rows := [
      { id := 1, type_id := 2, block_height := 800000,
        inscription_id := "gen1", location := some "la",
        old_location := some "lb" },
      c7Row],
    nextId := 3 }

/-! ## Properties of the ORDER BY comparison -/

theorem eventRowLe_trans (a b c : EventRow) (hab : eventRowLe a b)
    (hbc : eventRowLe b c) : eventRowLe a c := by
  simp only [eventRowLe, Bool.or_eq_true, Bool.and_eq_true,
    decide_eq_true_eq] at *
  omega

theorem eventRowLe_total (a b : EventRow) :
    (eventRowLe a b || eventRowLe b a) = true := by
  simp only [eventRowLe, Bool.or_eq_true, Bool.and_eq_true,
    decide_eq_true_eq]
  omega

theorem eventRowLe_type_id_le (a b : EventRow) (h : eventRowLe a b) :
    a.type_id ≤ b.type_id := by
  simp only [eventRowLe, Bool.or_eq_true, Bool.and_eq_true,
    decide_eq_true_eq] at h
  omega

/-! ## Claim C5 -/

/-- C5 counterexample: `create_channel` — the broker connection setup of
`src/indexer/rmq_con.rs` — returns a channel with publisher confirms enabled
but with no QoS prefetch applied at all; in particular its prefetch is not
2, refuting the claim that every consumer on that channel is limited to two
unacked deliveries. -/
theorem c5_counterexample :
    create_channel.confirmsEnabled = true ∧
      create_channel.prefetch = none :=
  ⟨rfl, rfl⟩

/-- C5 (amended): the broker connection setup returns a channel with
publisher confirms enabled and no QoS prefetch set; the prefetch of 2 is
applied only by the publisher's `rabbit_qos_setup` on its own channel. -/
theorem c5_amended :
    create_channel.confirmsEnabled = true ∧ create_channel.prefetch = none ∧
      ∀ c : ChannelState, (rabbit_qos_setup c).prefetch = some 2 ∧
        (rabbit_qos_setup c).confirmsEnabled = c.confirmsEnabled :=
  ⟨rfl, rfl, fun _ => ⟨rfl, rfl⟩⟩

/-! ## Claim C6 -/

/-- C6 counterexample: a delivery that deserializes but whose processing
fails, carrying `x-delivery-count = 0`: `EventConsumer::handle_delivery`
rejects it immediately without requeue and performs no republish, and
`BlockConsumer::handle_delivery` nacks it with `requeue = true` and performs
no republish either — refuting the claimed republish-with-incremented-count
behaviour. -/
theorem c6_counterexample :
    eventConsumerHandleDelivery true false = [BrokerOp.reject false] ∧
      blockConsumerHandleDelivery true false
          (some [("x-delivery-count", AmqpValue.longLongInt 0)]) =
        [BrokerOp.nack false true] :=
  ⟨rfl, by decide⟩

/-- C6 (amended): for a delivery that deserializes but whose processing
fails, `EventConsumer` rejects it without requeue regardless of any delivery
count, while `BlockConsumer` rejects it without requeue when the extracted
`x-delivery-count` is at least 3 and otherwise nacks it with
`requeue = true`; neither consumer republishes the message or increments the
counter. -/
theorem c6_amended (headers : Option (List (String × AmqpValue))) :
    eventConsumerHandleDelivery true false = [BrokerOp.reject false] ∧
      blockConsumerHandleDelivery true false headers =
        (if extractDeliveryCount headers ≥ 3 then [BrokerOp.reject false]
         else [BrokerOp.nack false true]) ∧
      ∀ q c, BrokerOp.publish q c ∉
        blockConsumerHandleDelivery true false headers := by
  refine ⟨rfl, ?_, ?_⟩
  · by_cases h : extractDeliveryCount headers ≥ 3 <;>
      simp [blockConsumerHandleDelivery, h]
  · intro q c
    by_cases h : extractDeliveryCount headers ≥ 3 <;>
      simp [blockConsumerHandleDelivery, h]

/-- C6 witness: the amended theorem applied at a concrete header map with
`x-delivery-count = 5`: the block consumer rejects without requeue. -/
theorem c6_amended_witness :
    blockConsumerHandleDelivery true false
        (some [("x-delivery-count", AmqpValue.longLongInt 5)]) =
      [BrokerOp.reject false] := by
  have h := (c6_amended
    (some [("x-delivery-count", AmqpValue.longLongInt 5)])).2.1
  have h2 : extractDeliveryCount
      (some [("x-delivery-count", AmqpValue.longLongInt 5)]) = 5 := rfl
  rw [h2] at h
  simpa using h

/-! ## Claim C4 -/

/-- C4 at the failing input: calling `save_inscription_created` twice with
`location = None` (height 800000) leaves TWO identical rows in the `events`
table, not one — the `location = $4` conjunct of the `WHERE NOT EXISTS`
guard compares against NULL and is therefore never TRUE, so the second call
inserts again. -/
theorem c4_code_evaluation :
    (save_inscription_created emptyEventsTable 800000 "gen1" none).rows.length
        = 1 ∧
      (save_inscription_created
          (save_inscription_created emptyEventsTable 800000 "gen1" none)
          800000 "gen1" none).rows.length = 2 ∧
      ((save_inscription_created
          (save_inscription_created emptyEventsTable 800000 "gen1" none)
          800000 "gen1" none).rows.filter fun r =>
            r.type_id == 1 && r.block_height == 800000 &&
              r.inscription_id == "gen1" && r.location == none).length = 2 :=
  by decide

/-! ## Claim C10 -/

/-- C10: a stored `location` or `old_location` text that fails to parse as a
`SatPoint` makes `Event::from_row` silently carry `None` for that field —
the resulting `Event` is indistinguishable from one read from a row whose
columns were NULL. -/
theorem c10_from_row_corrupt_location (parse : String → Option SatPointM)
    (r : EventRow) (s sOld : String) (hs : parse s = none)
    (hsOld : parse sOld = none) (hloc : r.location = some s)
    (hold : r.old_location = some sOld) :
    (eventFromRow parse r).location = none ∧
      (eventFromRow parse r).old_location = none ∧
      eventFromRow parse r =
        eventFromRow parse { r with location := none, old_location := none } := by
  refine ⟨?_, ?_, ?_⟩ <;> simp [eventFromRow, hloc, hold, hs, hsOld]

/-- C10 witness: a concrete corrupted row under a parse function that
rejects everything. -/
theorem c10_witness :
    (eventFromRow (fun _ => none)
        { id := 1, type_id := 2, block_height := 800000,
          inscription_id := "gen1", location := some "corrupt",
          old_location := some "garbage" }).location = none ∧
      (eventFromRow (fun _ => none)
        { id := 1, type_id := 2, block_height := 800000,
          inscription_id := "gen1", location := some "corrupt",
          old_location := some "garbage" }).old_location = none ∧
      eventFromRow (fun _ => none)
          { id := 1, type_id := 2, block_height := 800000,
            inscription_id := "gen1", location := some "corrupt",
            old_location := some "garbage" } =
        eventFromRow (fun _ => none)
          { id := 1, type_id := 2, block_height := 800000,
            inscription_id := "gen1", location := none,
            old_location := none } :=
  c10_from_row_corrupt_location (fun _ => none) _ "corrupt" "garbage"
    rfl rfl rfl rfl

/-! ## Claim C2 -/

/-- C2 counterexample: a Transferred event whose genesis id has no
inscription row, in an environment where every API call succeeds (so a
recovery fetch would be possible): `process_inscription_transferred` fails
with an error and writes nothing — there is no recovery path. -/
theorem c2_counterexample :
    fetch_inscription_id_by_genesis_id emptyEnrichDb "gen1" = none ∧
      process_inscription_transferred c2Env emptyEnrichDb c2Event
          { timestamp := 100 } = (emptyEnrichDb, .error ()) ∧
      (process_inscription_transferred c2Env emptyEnrichDb c2Event
          { timestamp := 100 }).1.inscriptions = [] ∧
      (process_inscription_transferred c2Env emptyEnrichDb c2Event
          { timestamp := 100 }).1.locations = [] :=
  ⟨rfl, rfl, rfl, rfl⟩

/-- C2 (amended): when the surrogate-id lookup by genesis id returns none,
`process_inscription_transferred` fails immediately with an error
("No inscription found for genesis_id"), fetches nothing, inserts no
inscription row and appends no location row: the state is returned
unchanged. -/
theorem c2_amended (env : SyncEnv) (st : EnrichDb) (event : EventM)
    (block_info : BlockInfo)
    (h : fetch_inscription_id_by_genesis_id st event.inscription_id = none) :
    process_inscription_transferred env st event block_info =
      (st, .error ()) := by
  simp only [process_inscription_transferred, h]

/-- C2 witness: the amended theorem applied at the concrete
counterexample-style input. -/
theorem c2_amended_witness :
    process_inscription_transferred c2Env emptyEnrichDb c2Event
        { timestamp := 100 } = (emptyEnrichDb, .error ()) :=
  c2_amended c2Env emptyEnrichDb c2Event { timestamp := 100 } rfl

/-! ## Claim C9 -/

/-- C9 counterexample: the transaction output at the satpoint exists and has
value 5000, but its script yields no address: `process_location` returns
`Ok(None)` — the value is dropped along with the address, and no tuple at
all is produced. -/
theorem c9_counterexample :
    c9Env.fetchTx "txa" =
        .ok { transaction :=
                { output := [{ script_pubkey := [106, 1], value := 5000 }] } } ∧
      process_location c9Env c9SatPoint = .ok none :=
  ⟨rfl, rfl⟩

/-- C9 (amended): when the output at the given vout exists but
`address_from_script` yields no address, `process_location` returns
`Ok(None)`: both address and value are absent from the result (which never
carries a `tx_index` at all), so the saved location row has NULL for both
`to_address` and `value`. -/
theorem c9_amended (env : SyncEnv) (location : SatPointM) (txd : TxDetails)
    (o : TxOut) (hfetch : env.fetchTx location.outpoint.txid = .ok txd)
    (hout : txd.transaction.output.get? location.outpoint.vout = some o)
    (haddr : env.addressFromScript o.script_pubkey = none) :
    process_location env location = .ok none := by
  simp only [process_location, hfetch, hout, haddr]

/-- C9 witness: the amended theorem applied at the concrete environment with
an address-less output of value 5000. -/
theorem c9_amended_witness :
    process_location c9Env c9SatPoint = .ok none :=
  c9_amended c9Env c9SatPoint
    { transaction := { output := [{ script_pubkey := [106, 1], value := 5000 }] } }
    { script_pubkey := [106, 1], value := 5000 } rfl rfl rfl

/-! ## Claim C8 -/

/-- C8: `try_and_extract_metadata` returns none when the metadata field is
absent; when CBOR decoding yields an empty map it returns none; when it
yields a non-empty map or an array it returns the value re-encoded as JSON
text; when it yields any other value, or when decoding fails, it returns
the raw bytes hex-encoded. -/
theorem c8_metadata_extraction (decode : List Nat → Except Unit JsonVal)
    (bytes : List Nat) :
    try_and_extract_metadata decode none = none ∧
      (decode bytes = .ok (.obj []) →
        try_and_extract_metadata decode (some bytes) = none) ∧
      (∀ kvs, kvs ≠ [] → decode bytes = .ok (.obj kvs) →
        try_and_extract_metadata decode (some bytes) =
          some (jsonToString (.obj kvs))) ∧
      (∀ xs, decode bytes = .ok (.arr xs) →
        try_and_extract_metadata decode (some bytes) =
          some (jsonToString (.arr xs))) ∧
      (∀ v, decode bytes = .ok v → (∀ kvs, v ≠ .obj kvs) →
        (∀ xs, v ≠ .arr xs) →
        try_and_extract_metadata decode (some bytes) =
          some (hexEncode bytes)) ∧
      (decode bytes = .error () →
        try_and_extract_metadata decode (some bytes) =
          some (hexEncode bytes)) := by
  refine ⟨rfl, ?_, ?_, ?_, ?_, ?_⟩
  · intro h
    simp [try_and_extract_metadata, h]
  · intro kvs hne h
    cases kvs with
    | nil => exact absurd rfl hne
    | cons kv kvs => simp [try_and_extract_metadata, h]
  · intro xs h
    simp [try_and_extract_metadata, h]
  · intro v h hobj harr
    match v, h with
    | .null, h => simp [try_and_extract_metadata, h]
    | .bool b, h => simp [try_and_extract_metadata, h]
    | .num n, h => simp [try_and_extract_metadata, h]
    | .str s, h => simp [try_and_extract_metadata, h]
    | .obj kvs, h => exact absurd rfl (hobj kvs)
    | .arr xs, h => exact absurd rfl (harr xs)
  · intro h
    simp [try_and_extract_metadata, h]

/-- C8 witness: concrete decoders exercising the empty-map, decode-failure
and array branches. -/
theorem c8_witness :
    try_and_extract_metadata (fun _ => .ok (.obj [])) (some [1]) = none ∧
      try_and_extract_metadata (fun _ => .error ()) (some [171]) =
        some (hexEncode [171]) ∧
      try_and_extract_metadata (fun _ => .ok (.arr [.num 1])) (some [1]) =
        some (jsonToString (.arr [.num 1])) :=
  ⟨(c8_metadata_extraction (fun _ => .ok (.obj [])) [1]).2.1 rfl,
   (c8_metadata_extraction (fun _ => .error ()) [171]).2.2.2.2.2 rfl,
   (c8_metadata_extraction (fun _ => .ok (.arr [.num 1])) [1]).2.2.2.1
     [.num 1] rfl⟩

/-! ## Claim C3 -/

/-- C3 counterexample: a server that always answers HTTP 404 (a 4xx other
than 429).  The claim says such a response is not retried and surfaces
immediately; the code instead retries it like a 5xx — three attempts with
back-off sleeps of 1, 2 and 4 seconds — and then returns the exhaustion
error. -/
theorem c3_counterexample :
    execute_with_retries (fun _ => .response 404 "") (fun _ => some ()) 3 =
      (.exhausted (some "404"), [1, 2, 4]) := rfl

theorem retryLoop_never_nonRetriable {τ : Type} (send : Nat → HttpOutcome)
    (decodeBody : String → Option τ) :
    ∀ remaining attempt delay lastError s,
      (retryLoop send decodeBody remaining attempt delay lastError).1 ≠
        ApiResult.nonRetriable s := by
  intro remaining
  induction remaining with
  | zero =>
    intro attempt delay lastError s
    simp [retryLoop]
  | succ n ih =>
    intro attempt delay lastError s
    simp only [retryLoop]
    cases hsend : send attempt with
    | transportError msg =>
      simpa using ih (attempt + 1) (delay * 2) (some msg) s
    | response status body =>
      by_cases hfail : errorForStatusFails status = true
      · have hinner : (isServerError status || isClientError status) = true := by
          simp only [errorForStatusFails, Bool.or_eq_true] at hfail
          simp only [Bool.or_eq_true]
          exact hfail.symm
        simp only [hfail, if_true, hinner]
        simpa using ih (attempt + 1) (delay * 2)
          (some (statusErrorText status)) s
      · simp only [Bool.not_eq_true] at hfail
        simp only [hfail, Bool.false_eq_true, if_false]
        cases decodeBody body <;> simp

theorem retryLoop_all_retriable {τ : Type} (send : Nat → HttpOutcome)
    (decodeBody : String → Option τ) :
    ∀ remaining attempt delay lastError,
      (∀ i, attempt ≤ i → i < attempt + remaining →
        retriableOutcome (send i) = true) →
      ∃ e, retryLoop send decodeBody remaining attempt delay lastError =
        (ApiResult.exhausted e, geomSleeps delay remaining) := by
  intro remaining
  induction remaining with
  | zero =>
    intro attempt delay lastError _
    exact ⟨lastError, rfl⟩
  | succ n ih =>
    intro attempt delay lastError hall
    have h0 : retriableOutcome (send attempt) = true :=
      hall attempt (Nat.le_refl _) (by omega)
    have hrest : ∀ i, attempt + 1 ≤ i → i < attempt + 1 + n →
        retriableOutcome (send i) = true := by
      intro i h1 h2
      exact hall i (by omega) (by omega)
    cases hsend : send attempt with
    | transportError msg =>
      obtain ⟨e, he⟩ := ih (attempt + 1) (delay * 2) (some msg) hrest
      refine ⟨e, ?_⟩
      simp only [retryLoop, hsend, he, geomSleeps]
    | response status body =>
      have hfail : errorForStatusFails status = true := by
        rw [hsend] at h0
        simpa [retriableOutcome] using h0
      have hinner : (isServerError status || isClientError status) = true := by
        simp only [errorForStatusFails, Bool.or_eq_true] at hfail
        simp only [Bool.or_eq_true]
        exact hfail.symm
      obtain ⟨e, he⟩ :=
        ih (attempt + 1) (delay * 2) (some (statusErrorText status)) hrest
      refine ⟨e, ?_⟩
      simp only [retryLoop, hsend, hfail, if_true, hinner, he, geomSleeps]

/-- C3 (amended): `execute_with_retries` retries transport errors and every
HTTP 4xx and 5xx status — 404 and the other non-429 client errors included —
up to the attempt budget, with exponential back-off sleeps starting at 1
second and doubling; no HTTP status is ever surfaced without retrying (the
immediate-return branch for a status error is unreachable).  With the
budget of 3 used by all three fetch operations, three retriable failures
produce the exhaustion error after sleeps of 1, 2 and 4 seconds. -/
theorem c3_amended {τ : Type} (send : Nat → HttpOutcome)
    (decodeBody : String → Option τ) :
    (∀ maxAttempts s,
        (execute_with_retries send decodeBody maxAttempts).1 ≠
          ApiResult.nonRetriable s) ∧
      ((∀ i, i < 3 → retriableOutcome (send i) = true) →
        ∃ e, execute_with_retries send decodeBody 3 =
          (ApiResult.exhausted e, [1, 2, 4])) := by
  constructor
  · intro maxAttempts s
    exact retryLoop_never_nonRetriable send decodeBody maxAttempts 0 1 none s
  · intro hall
    have h := retryLoop_all_retriable send decodeBody 3 0 1 none
      (by intro i h1 h2; exact hall i (by omega))
    simpa [execute_with_retries, geomSleeps] using h

/-- C3 witness: a server answering 503, 429, then a transport failure: the
three fetch attempts are all retried and exhausted with sleeps 1, 2, 4. -/
theorem c3_amended_witness :
    (∀ s, (execute_with_retries
        (fun i => if i = 0 then HttpOutcome.response 503 ""
          else if i = 1 then HttpOutcome.response 429 ""
          else HttpOutcome.transportError "reset")
        (fun _ => some (() : Unit)) 3).1 ≠ ApiResult.nonRetriable s) ∧
      ∃ e, execute_with_retries
          (fun i => if i = 0 then HttpOutcome.response 503 ""
            else if i = 1 then HttpOutcome.response 429 ""
            else HttpOutcome.transportError "reset")
          (fun _ => some (() : Unit)) 3 =
        (ApiResult.exhausted e, [1, 2, 4]) :=
  ⟨fun s => (c3_amended _ _).1 3 s,
   (c3_amended _ _).2 (by intro i h; interval_cases i <;> decide)⟩

/-! ## Claim C7 -/

/-- C7: `fetch_events_by_block_height h` returns exactly the stored events
with height `h` (each decoded through `Event::from_row`), and in the
returned order no row with `type_id = 2` ever precedes a row with
`type_id = 1`: creations come before transfers. -/
theorem c7_fetch_events_ordering (parse : String → Option SatPointM)
    (t : EventsTable) (h : Nat) :
    (∀ r ∈ t.rows, r.block_height = (h : Int) →
        eventFromRow parse r ∈ fetch_events_by_block_height parse t h) ∧
      (∀ e ∈ fetch_events_by_block_height parse t h,
        ∃ r ∈ t.rows, r.block_height = (h : Int) ∧ e = eventFromRow parse r) ∧
      ∀ i j : Fin (fetch_events_by_block_height parse t h).length, i < j →
        ¬(((fetch_events_by_block_height parse t h).get i).type_id = 2 ∧
          ((fetch_events_by_block_height parse t h).get j).type_id = 1) := by
  refine ⟨?_, ?_, ?_⟩
  · intro r hr hrh
    simp only [fetch_events_by_block_height, List.mem_map]
    exact ⟨r, List.mem_mergeSort.mpr
      (List.mem_filter.mpr ⟨hr, by simp [hrh]⟩), rfl⟩
  · intro e he
    simp only [fetch_events_by_block_height, List.mem_map] at he
    obtain ⟨r, hr, rfl⟩ := he
    have hr2 := List.mem_filter.mp (List.mem_mergeSort.mp hr)
    exact ⟨r, hr2.1, by simpa using hr2.2, rfl⟩
  · have hsorted := List.sorted_mergeSort
      eventRowLe_trans eventRowLe_total
      (t.rows.filter fun r => r.block_height == (h : Int))
    have hmap : List.Pairwise
        (fun e1 e2 : EventM => e1.type_id ≤ e2.type_id)
        (fetch_events_by_block_height parse t h) := by
      unfold fetch_events_by_block_height
      exact hsorted.map (eventFromRow parse)
        (fun a b hab => eventRowLe_type_id_le a b hab)
    intro i j hij hcontra
    obtain ⟨h2, h1⟩ := hcontra
    have hle := (List.pairwise_iff_get.mp hmap) i j hij
    omega

/-- C7 witness: in a table where a Transferred row was inserted before a
Created row of the same height, the Created row's decoded event is in the
returned list. -/
theorem c7_witness :
    eventFromRow (fun _ => none) c7Row ∈
      fetch_events_by_block_height (fun _ => none) c7Table 800000 :=
  (c7_fetch_events_ordering (fun _ => none) c7Table 800000).1 c7Row
    (by simp [c7Table]) rfl

/-! ## Helper lemmas about the enrichment state -/

theorem sqlEqOpt_true_eq {α : Type} [DecidableEq α] {a b : Option α}
    (h : sqlEqOpt a b = true) : a = b := by
  cases a <;> cases b <;> simp_all [sqlEqOpt]

theorem save_location_inscriptions (st : EnrichDb) (row : LocationRow) :
    (save_location st row).inscriptions = st.inscriptions := by
  simp only [save_location]
  split <;> rfl

theorem save_location_mono (st : EnrichDb) (row : LocationRow)
    (l : LocationRow) (hl : l ∈ st.locations) :
    l ∈ (save_location st row).locations := by
  simp only [save_location]
  split
  · exact hl
  · exact List.mem_append_left _ hl

theorem save_location_present (st : EnrichDb) (row : LocationRow) :
    ∃ l ∈ (save_location st row).locations,
      l.block_height = row.block_height ∧ l.cur_output = row.cur_output ∧
        l.cur_offset = row.cur_offset ∧ l.from_address = row.from_address ∧
        l.prev_output = row.prev_output ∧ l.prev_offset = row.prev_offset := by
  simp only [save_location]
  split
  case isTrue hdup =>
    obtain ⟨l, hl, hprop⟩ := List.any_eq_true.mp hdup
    simp only [Bool.and_eq_true] at hprop
    obtain ⟨⟨⟨⟨⟨⟨⟨⟨⟨⟨h1, h2⟩, h3⟩, h4⟩, h5⟩, h6⟩, h7⟩, h8⟩, h9⟩, h10⟩,
      h11⟩ := hprop
    exact ⟨l, hl, eq_of_beq h2, sqlEqOpt_true_eq h6, sqlEqOpt_true_eq h7,
      sqlEqOpt_true_eq h8, sqlEqOpt_true_eq h9, sqlEqOpt_true_eq h10⟩
  case isFalse =>
    exact ⟨row, List.mem_append_right _ (List.mem_singleton.mpr rfl),
      rfl, rfl, rfl, rfl, rfl, rfl⟩

theorem save_inscription_locations (st : EnrichDb) (d : InscriptionDetails)
    (m : Option String) :
    (save_inscription st d m).1.locations = st.locations := by
  simp only [save_inscription]
  split <;> rfl

theorem save_inscription_present (st : EnrichDb) (d : InscriptionDetails)
    (m : Option String) :
    inscriptionPresent (save_inscription st d m).1 d.id := by
  cases hfind : st.inscriptions.find? (fun r => r.genesis_id == d.id) with
  | some existing =>
    have hmem := List.mem_of_find?_eq_some hfind
    have hbeq := List.find?_some hfind
    have hgen : existing.genesis_id = d.id := by simpa using hbeq
    simp only [save_inscription, hfind, inscriptionPresent]
    refine ⟨_, List.mem_map.mpr ⟨existing, hmem, rfl⟩, ?_⟩
    simp [hbeq, hgen]
  | none =>
    simp only [save_inscription, hfind, inscriptionPresent]
    exact ⟨_, List.mem_append_right _ (List.mem_singleton.mpr rfl), rfl⟩

theorem save_inscription_mono (st : EnrichDb) (d : InscriptionDetails)
    (m : Option String) (g : String) (hp : inscriptionPresent st g) :
    inscriptionPresent (save_inscription st d m).1 g := by
  obtain ⟨r, hr, hrg⟩ := hp
  cases hfind : st.inscriptions.find? (fun x => x.genesis_id == d.id) with
  | some existing =>
    have hbeq := List.find?_some hfind
    have hgen : existing.genesis_id = d.id := by simpa using hbeq
    simp only [save_inscription, hfind, inscriptionPresent]
    refine ⟨_, List.mem_map.mpr ⟨r, hr, rfl⟩, ?_⟩
    by_cases hrd : (r.genesis_id == d.id) = true
    · have hrdeq : r.genesis_id = d.id := by simpa using hrd
      simp only [hrd, if_true]
      show existing.genesis_id = g
      rw [hgen, ← hrdeq, hrg]
    · simp only [hrd, Bool.false_eq_true, if_false]
      exact hrg
  | none =>
    simp only [save_inscription, hfind, inscriptionPresent]
    exact ⟨r, List.mem_append_left _ hr, hrg⟩

theorem process_created_mono (env : SyncEnv) (st : EnrichDb) (e : EventM)
    (b : BlockInfo) :
    (∀ l ∈ st.locations,
        l ∈ (process_inscription_created env st e b).1.locations) ∧
      ∀ g, inscriptionPresent st g →
        inscriptionPresent (process_inscription_created env st e b).1 g := by
  cases hfd : env.fetchInscriptionDetails e.inscription_id with
  | error err =>
    simp only [process_inscription_created, hfd]
    exact ⟨fun l hl => hl, fun g hp => hp⟩
  | ok d =>
    simp only [process_inscription_created, hfd]
    cases htl : (match e.location with
        | some location => process_location env location
        | none => Except.ok none) with
    | error err =>
      simp only [htl]
      refine ⟨fun l hl => ?_, fun g hp => save_inscription_mono _ _ _ _ hp⟩
      rw [save_inscription_locations]
      exact hl
    | ok tl =>
      simp only [htl]
      constructor
      · intro l hl
        apply save_location_mono
        rw [save_inscription_locations]
        exact hl
      · intro g hp
        have h1 := save_inscription_mono st d
          (try_and_extract_metadata env.cborDecode d.metadata) g hp
        obtain ⟨r, hr, hrg⟩ := h1
        refine ⟨r, ?_, hrg⟩
        rw [save_location_inscriptions]
        exact hr

theorem process_transferred_state (env : SyncEnv) (st : EnrichDb)
    (e : EventM) (b : BlockInfo) :
    (process_inscription_transferred env st e b).1.inscriptions =
        st.inscriptions ∧
      ∀ l ∈ st.locations,
        l ∈ (process_inscription_transferred env st e b).1.locations := by
  cases hfi : fetch_inscription_id_by_genesis_id st e.inscription_id with
  | none =>
    simp only [process_inscription_transferred, hfi]
    exact ⟨by trivial, fun l hl => hl⟩
  | some iid =>
    simp only [process_inscription_transferred, hfi]
    cases htl : (match e.location with
        | some location => process_location env location
        | none => Except.ok none) with
    | error err =>
      simp only [htl]
      exact ⟨by trivial, fun l hl => hl⟩
    | ok tl =>
      simp only [htl]
      cases hfl : (match e.old_location with
          | some location => process_location env location
          | none => Except.ok none) with
      | error err =>
        simp only [hfl]
        exact ⟨by trivial, fun l hl => hl⟩
      | ok fl =>
        simp only [hfl]
        exact ⟨save_location_inscriptions _ _,
          fun l hl => save_location_mono _ _ _ hl⟩

theorem syncBlocksStep_mono (env : SyncEnv) (b : BlockInfo) (st : EnrichDb)
    (e : EventM) :
    (∀ l ∈ st.locations, l ∈ (syncBlocksStep env b st e).locations) ∧
      ∀ g, inscriptionPresent st g →
        inscriptionPresent (syncBlocksStep env b st e) g := by
  unfold syncBlocksStep
  split
  · exact process_created_mono env st e b
  · split
    · have h := process_transferred_state env st e b
      refine ⟨h.2, fun g hp => ?_⟩
      obtain ⟨r, hr, hrg⟩ := hp
      refine ⟨r, ?_, hrg⟩
      rw [h.1]
      exact hr
    · exact ⟨fun l hl => hl, fun g hp => hp⟩

theorem foldl_syncBlocksStep_mono (env : SyncEnv) (b : BlockInfo) :
    ∀ (events : List EventM) (st : EnrichDb),
      (∀ l ∈ st.locations,
          l ∈ (events.foldl (syncBlocksStep env b) st).locations) ∧
        ∀ g, inscriptionPresent st g →
          inscriptionPresent (events.foldl (syncBlocksStep env b) st) g := by
  intro events
  induction events with
  | nil => exact fun st => ⟨fun l hl => hl, fun g hp => hp⟩
  | cons e es ih =>
    intro st
    constructor
    · intro l hl
      exact (ih _).1 l ((syncBlocksStep_mono env b st e).1 l hl)
    · intro g hp
      exact (ih _).2 g ((syncBlocksStep_mono env b st e).2 g hp)

theorem process_created_success (env : SyncEnv) (st : EnrichDb) (e : EventM)
    (b : BlockInfo) (d : InscriptionDetails)
    (hfd : env.fetchInscriptionDetails e.inscription_id = .ok d)
    (hok : (process_inscription_created env st e b).2 = .ok ()) :
    inscriptionPresent (process_inscription_created env st e b).1 d.id ∧
      createdLocationPresent (process_inscription_created env st e b).1 e := by
  simp only [process_inscription_created, hfd] at hok ⊢
  cases htl : (match e.location with
      | some location => process_location env location
      | none => Except.ok none) with
  | error err =>
    rw [htl] at hok
    simp at hok
  | ok tl =>
    simp only [htl] at hok ⊢
    constructor
    · have h1 := save_inscription_present st d
        (try_and_extract_metadata env.cborDecode d.metadata)
      obtain ⟨r, hr, hrg⟩ := h1
      refine ⟨r, ?_, hrg⟩
      rw [save_location_inscriptions]
      exact hr
    · obtain ⟨l, hl, p1, p2, p3, p4, p5, p6⟩ :=
        save_location_present
          (save_inscription st d
            (try_and_extract_metadata env.cborDecode d.metadata)).1
          { inscription_id :=
              (save_inscription st d
                (try_and_extract_metadata env.cborDecode d.metadata)).2
            block_height := e.block_height
            block_time := b.timestamp
            tx_id := e.location.map fun loc => loc.outpoint.txid
            to_address := tl.map fun p => p.1
            cur_output := e.location.map fun loc =>
              outPointToString loc.outpoint
            cur_offset := e.location.map fun loc => loc.offset
            from_address := none
            prev_output := none
            prev_offset := none
            value := tl.map fun p => p.2 }
      exact ⟨l, hl, p1, p2, p3, p4, p5, p6⟩

theorem process_transferred_success (env : SyncEnv) (st : EnrichDb)
    (e : EventM) (b : BlockInfo)
    (hok : (process_inscription_transferred env st e b).2 = .ok ()) :
    transferLocationPresent (process_inscription_transferred env st e b).1
      e := by
  cases hfi : fetch_inscription_id_by_genesis_id st e.inscription_id with
  | none => simp [process_inscription_transferred, hfi] at hok
  | some iid =>
    simp only [process_inscription_transferred, hfi] at hok ⊢
    cases htl : (match e.location with
        | some location => process_location env location
        | none => Except.ok none) with
    | error err =>
      rw [htl] at hok
      simp at hok
    | ok tl =>
      simp only [htl] at hok ⊢
      cases hfl : (match e.old_location with
          | some location => process_location env location
          | none => Except.ok none) with
      | error err =>
        rw [hfl] at hok
        simp at hok
      | ok fl =>
        simp only [hfl] at hok ⊢
        obtain ⟨l, hl, p1, p2, p3, p4, p5, p6⟩ :=
          save_location_present st
            { inscription_id := iid
              block_height := e.block_height
              block_time := b.timestamp
              tx_id := e.location.map fun loc => loc.outpoint.txid
              to_address := tl.map fun p => p.1
              cur_output := e.location.map fun loc =>
                outPointToString loc.outpoint
              cur_offset := e.location.map fun loc => loc.offset
              from_address := fl.map fun p => p.1
              prev_output := e.old_location.map fun loc =>
                outPointToString loc.outpoint
              prev_offset := e.old_location.map fun loc => loc.offset
              value := tl.map fun p => p.2 }
        exact ⟨l, hl, p1, p2, p3, p5, p6⟩

/-! ## Claim C1 -/

/-- C1 counterexample: block 800000 has one Created event, and the details
fetch for it fails.  `sync_blocks` swallows the per-event failure (it is
only logged), returns success — so the delivery is acked — yet no
inscription row and no location row was written: the enrichment of an event
at the committed height is not durable at ack time. -/
theorem c1_counterexample :
    c1Env.fetchEvents 800000 = .ok [c1Event] ∧ c1Event.type_id = 1 ∧
      sync_blocks c1Env emptyEnrichDb 800000 = (emptyEnrichDb, .ok ()) ∧
      (sync_blocks c1Env emptyEnrichDb 800000).1.inscriptions = [] ∧
      (sync_blocks c1Env emptyEnrichDb 800000).1.locations = [] :=
  ⟨rfl, rfl, rfl, rfl, rfl⟩

/-- C1 (amended): processing a `BlockCommitted(h)` delivery acks whenever
fetching the events and the block info succeeds, regardless of per-event
enrichment failures, which are logged and swallowed; durability holds only
per event: a Created event whose processing step succeeds has an
inscription row (for the genesis id the API returned) and its location row
written, a Transferred event whose step succeeds has its location row
written, and rows once written survive the processing of the rest of the
block. -/
theorem c1_amended :
    (∀ (env : SyncEnv) (st : EnrichDb) (h : Nat) (events : List EventM)
        (block_info : BlockInfo), env.fetchEvents h = .ok events →
        env.fetchBlockInfo h = .ok block_info →
        (sync_blocks env st h).2 = .ok ()) ∧
      (∀ (env : SyncEnv) (st : EnrichDb) (e : EventM) (b : BlockInfo)
          (d : InscriptionDetails),
        env.fetchInscriptionDetails e.inscription_id = .ok d →
        (process_inscription_created env st e b).2 = .ok () →
        inscriptionPresent (process_inscription_created env st e b).1 d.id ∧
          createdLocationPresent (process_inscription_created env st e b).1
            e) ∧
      (∀ (env : SyncEnv) (st : EnrichDb) (e : EventM) (b : BlockInfo),
        (process_inscription_transferred env st e b).2 = .ok () →
        transferLocationPresent
          (process_inscription_transferred env st e b).1 e) ∧
      ∀ (env : SyncEnv) (st : EnrichDb) (h : Nat),
        (∀ l ∈ st.locations, l ∈ (sync_blocks env st h).1.locations) ∧
          ∀ g, inscriptionPresent st g →
            inscriptionPresent (sync_blocks env st h).1 g := by
  refine ⟨?_, process_created_success, process_transferred_success, ?_⟩
  · intro env st h events block_info h1 h2
    simp only [sync_blocks, h1]
    by_cases he : events.isEmpty <;> simp [he, h2]
  · intro env st h
    cases h1 : env.fetchEvents h with
    | error err =>
      simp only [sync_blocks, h1]
      exact ⟨fun l hl => hl, fun g hp => hp⟩
    | ok events =>
      simp only [sync_blocks, h1]
      by_cases he : events.isEmpty
      · simp only [he, if_true]
        exact ⟨fun l hl => hl, fun g hp => hp⟩
      · simp only [he, Bool.false_eq_true, if_false]
        cases h2 : env.fetchBlockInfo h with
        | error err =>
          simp only [h2]
          exact ⟨fun l hl => hl, fun g hp => hp⟩
        | ok block_info =>
          simp only [h2]
          exact foldl_syncBlocksStep_mono env block_info events st

/-- C1 witness: the amended theorem applied at concrete inputs — the ack
happens in the failing environment, a Created event is durably enriched in
the succeeding environment, and a Transferred event is durably enriched
when its inscription row pre-exists. -/
theorem c1_amended_witness :
    (sync_blocks c1Env emptyEnrichDb 800000).2 = .ok () ∧
      (inscriptionPresent
          (process_inscription_created c1GoodEnv emptyEnrichDb c1Event
            { timestamp := 100 }).1 c2Details.id ∧
        createdLocationPresent
          (process_inscription_created c1GoodEnv emptyEnrichDb c1Event
            { timestamp := 100 }).1 c1Event) ∧
      transferLocationPresent
        (process_inscription_transferred c2Env c1Db c2Event
          { timestamp := 100 }).1 c2Event :=
  ⟨c1_amended.1 c1Env emptyEnrichDb 800000 [c1Event] { timestamp := 100 }
      rfl rfl,
   c1_amended.2.1 c1GoodEnv emptyEnrichDb c1Event { timestamp := 100 }
      c2Details rfl rfl,
   c1_amended.2.2.1 c2Env c1Db c2Event { timestamp := 100 } rfl⟩

end LrOrd
